import Mathlib

/-!
Verification development for the node-hdb-pool repository.

Shallow embedding of the parts of the source relevant to the frozen claims:
- `HdbPool` models `lib/hdbPool.js` (pool construction, authentication method
  selection, the query dispatcher's cancellation behaviour, response-timing
  headers, DSV quoting, `createPool` sanity checks).
- `TransformLobs` models `lib/transformLobs.js` (the large-object streaming
  transform).
- `HdbMetaPool` models `lib/hdbMetaPool.js` (environment routing/validation,
  the authentication-failure recovery policy, environment resolution from a
  request).

JavaScript `undefined`/`null`/missing fields are modelled with `Option`;
JavaScript `NaN` arising from arithmetic on `undefined` is modelled as `none`.
-/

namespace HdbPool

/-! ### Authentication method selection (`hdbPool.js`, factory `create`) -/

/-- The credential-relevant fields of the `options` object handed to
`HDBPool`. `none` models an absent (or falsy) field. -/
structure AuthOptions where
  user : Option String
  password : Option String
  sessionCookie : Option String
  assertion : Option String
deriving DecidableEq

/-- Models `crypto.randomBytes(1)`: a single random byte sent as a placeholder
password in the sessionCookie and assertion modes. Its content is never
inspected; only its non-emptiness matters to the protocol workaround. -/
def placeholderPassword : List UInt8 := [0]

/-- The `connOpts` value built by the factory `create` callback: exactly one
authentication method with its credentials. -/
inductive Credential where
  | password (user pw : String)
  | sessionCookie (user : String) (placeholderPw : List UInt8) (cookie : String)
  | assertion (user : String) (placeholderPw : List UInt8) (assertionValue : String)
deriving DecidableEq

/-- The `if / else if / else` chain of the factory `create` callback in
`hdbPool.js`: username+password, else username+sessionCookie, else SAML
assertion, else the `'no authentication method'` error. `user` is the
already-resolved user variable (`options.user`, or the NameID extracted from
the assertion, or `'Unknown-user'`). -/
def selectAuth (o : AuthOptions) (user : String) : Except String Credential :=
  match o.user, o.password with
  | some _, some p => .ok (.password user p)
  | _, _ =>
    match o.user, o.sessionCookie with
    | some u, some c => .ok (.sessionCookie u placeholderPassword c)
    | _, _ =>
      match o.assertion with
      | some a => .ok (.assertion user placeholderPassword a)
      | none => .error "no authentication method"

/-! ### Pool construction and first-connection serialization (`HDBPool`,
factory `create` success path) -/

/-- The pool-size configuration: `minPoolSize` is `options.minPoolSize || 0`,
`maxPoolSize` is `options.maxPoolSize || 1`. -/
structure PoolCfg where
  minPoolSize : Nat
  maxPoolSize : Nat
deriving DecidableEq

/-- State of one `HDBPool`'s underlying generic-pool together with the shared
`options` object, restricted to what the first-connection claims need:
`max` is the generic-pool `max` field; `creating` lists the in-flight handle
creations (an entry is `true` iff the creation started with no cached session
cookie, i.e. uses the SAML assertion method); `handles` lists the session
cookies of the successfully created handles; `stored` is
`options.sessionCookie`; `samlAuths` counts completed assertion
authentications. Handle destruction is not modelled: the claims concern the
creation phase only. -/
structure PoolSt where
  max : Nat
  creating : List Bool
  handles : List String
  stored : Option String
  samlAuths : Nat
deriving DecidableEq

/-- The `HDBPool` constructor: `var maxPoolSize = options.maxPoolSize || 1;
if (options.minPoolSize > 0) maxPoolSize = 1;`. -/
def initPoolSt (cfg : PoolCfg) : PoolSt :=
  { max := if cfg.minPoolSize > 0 then 1 else cfg.maxPoolSize
    creating := []
    handles := []
    stored := none
    samlAuths := 0 }

/-- One step of the pool, for an assertion-configured pool (no initial user
password or cookie): generic-pool admits a new creation only while
`creating + handles < max`; a creation that started with a cached cookie uses
the sessionCookie method and reuses that cookie; a creation that started with
no cached cookie performs the delegated (assertion) authentication, whose
fresh server cookie `c` is stored into the shared `options.sessionCookie`.
On every successful connection the factory restores
`poolFactory.max = options.maxPoolSize`; a failed creation is surfaced to the
one waiting acquirer and changes nothing else. -/
inductive PoolStep (cfg : PoolCfg) : PoolSt → PoolSt → Prop where
  | start (s : PoolSt) (h : s.creating.length + s.handles.length < s.max) :
      PoolStep cfg s { s with creating := s.stored.isNone :: s.creating }
  | finishAssertion (s : PoolSt) (rest : List Bool) (c : String)
      (h : s.creating = true :: rest) :
      PoolStep cfg s
        { max := cfg.maxPoolSize
          creating := rest
          handles := c :: s.handles
          stored := some c
          samlAuths := s.samlAuths + 1 }
  | finishCookie (s : PoolSt) (rest : List Bool) (c : String)
      (h1 : s.creating = false :: rest) (h2 : s.stored = some c) :
      PoolStep cfg s
        { max := cfg.maxPoolSize
          creating := rest
          handles := c :: s.handles
          stored := some c
          samlAuths := s.samlAuths }
  | fail (s : PoolSt) (m : Bool) (rest : List Bool)
      (h : s.creating = m :: rest) :
      PoolStep cfg s { s with creating := rest }

/-- States reachable from a freshly constructed pool. -/
inductive PoolReach (cfg : PoolCfg) : PoolSt → Prop where
  | init : PoolReach cfg (initPoolSt cfg)
  | step {s t : PoolSt} : PoolReach cfg s → PoolStep cfg s t → PoolReach cfg t

/-- Invariant of an assertion-configured pool with `minPoolSize > 0`. -/
def PoolInv (cfg : PoolCfg) (s : PoolSt) : Prop :=
  s.creating.length + s.handles.length ≤ s.max ∧
  (s.stored = none →
    s.handles = [] ∧ s.samlAuths = 0 ∧ (∀ b ∈ s.creating, b = true) ∧ s.max = 1) ∧
  (∀ c, s.stored = some c →
    s.samlAuths = 1 ∧ s.handles ≠ [] ∧ (∀ h ∈ s.handles, h = c) ∧
    (∀ b ∈ s.creating, b = false) ∧ s.max = cfg.maxPoolSize)

/-! ### Query dispatch cancellation (`hdbPool.js`, `query`) -/

/-- When, relative to a dispatched query, the external request's `close`
event fires. -/
inductive CloseTime where
  | never
  | whileWaiting
  | duringExec
deriving DecidableEq

/-- Outcome of the underlying statement execution. -/
inductive QueryOutcome where
  | ok (rows : List String)
  | err (e : String)
deriving DecidableEq

/-- Observable actions of `query` towards the pool and the caller callback. -/
inductive DispatchEvent where
  | release
  | callback (err : Option String) (rows : Option (List String))
deriving DecidableEq

/-- The event trace of `query` in `hdbPool.js` for one dispatched query, as a
function of when the request closes and of the execution outcome:
if the request closed while waiting for a free resource, the acquire callback
finds `reqQueue[id]` deleted, releases the handle and calls `cb(null)` and the
query is never started; if `close` fires after acquisition, `closeCb` releases
the handle and calls `cb(null)`, but the in-flight execution still completes
and `exCb` releases again and calls `cb(err, rows)`; with no close, `exCb`
releases and delivers the outcome. -/
def dispatchEvents (close : CloseTime) (outcome : QueryOutcome) : List DispatchEvent :=
  match close with
  | .whileWaiting => [.release, .callback none none]
  | .never =>
    match outcome with
    | .ok rows => [.release, .callback none (some rows)]
    | .err e => [.release, .callback (some e) none]
  | .duringExec =>
    [.release, .callback none none] ++
      (match outcome with
       | .ok rows => [.release, .callback none (some rows)]
       | .err e => [.release, .callback (some e) none])

/-! ### Response timing headers (`setupRespHeader`, `execQuery`,
`executeQuery`) -/

/-- The fields `this.start` and `this.execStart` read by `execQuery` and
`executeQuery` from the `HDBPool` instance. No statement in the source ever
assigns them (`query` keeps its timestamps in local variables `start` and
`execStart` only), so on the instance they are `undefined`. -/
structure TimingFields where
  start : Option Int
  execStart : Option Int
deriving DecidableEq

/-- The `HDBPool` instance's timing fields: never assigned, hence undefined. -/
def poolTimingFields : TimingFields := { start := none, execStart := none }

/-- JavaScript subtraction where an operand may be `undefined`: any
`undefined` operand yields `NaN`, modelled as `none`. -/
def jsSub (a b : Option Int) : Option Int :=
  match a, b with
  | some x, some y => some (x - y)
  | _, _ => none

/-- `setupRespHeader(options, start, execStart, resp)`: sets
`<resphPrefix>query-time` to `+new Date() - execStart` and
`<resphPrefix>waiting-time` to `execStart - start`. -/
def setupRespHeader (headerPfx : String) (start execStart : Option Int) (now : Int) :
    List (String × Option Int) :=
  [ (headerPfx ++ "query-time", jsSub (some now) execStart),
    (headerPfx ++ "waiting-time", jsSub execStart start) ]

/-- The headers actually produced for a request-integrated query: `query`
records the ready time and the acquisition time in its local variables
`start` and `execStart`, but `execQuery`/`executeQuery` read
`this.start`/`this.execStart` from the pool instance, which the source never
assigns. -/
def queryRespHeaders (headerPfx : String) (tReady tAcquired tDone : Int) :
    List (String × Option Int) :=
  let localStart := tReady
  let localExecStart := tAcquired
  let _ := localStart
  let _ := localExecStart
  setupRespHeader headerPfx poolTimingFields.start poolTimingFields.execStart tDone

/-! ### DSV quoting (`dsvquote`) and an RFC 4180 reader -/

/-- `v.replace(/"/g, '""')`: double every double-quote character. -/
def escQuote : List Char → List Char
  | [] => []
  | c :: t => if c = '"' then '"' :: '"' :: escQuote t else c :: escQuote t

/-- The quoting condition of `dsvquote`: the value contains the separator, a
double quote, or a line break (`/\r?\n|\r/` matches iff the value contains
`'\n'` or `'\r'`). -/
def needsQuoting (v : List Char) (sep : Char) : Bool :=
  v.contains sep || v.contains '"' || v.any (fun c => c = '\n' || c = '\r')

/-- `dsvquote(v, sep)` from `hdbPool.js`: a falsy (empty) value is returned
unchanged; otherwise, if the value contains the separator, a double quote or a
line break, it is enclosed in double quotes with embedded double quotes
doubled; otherwise returned unchanged. -/
def dsvquote (v : List Char) (sep : Char) : List Char :=
  if v.isEmpty then v
  else if needsQuoting v sep then '"' :: (escQuote v ++ ['"'])
  else v

/-- Undo quote doubling: each `""` pair becomes one `"`. -/
def unescQuote : List Char → List Char
  | [] => []
  | [c] => [c]
  | c₁ :: c₂ :: t =>
    if c₁ = '"' ∧ c₂ = '"' then '"' :: unescQuote t
    else c₁ :: unescQuote (c₂ :: t)

/-- Modelled from the spec: an RFC 4180-compliant reader for a single field
(the reader is external to the repository). A field that starts and ends with
a double quote is unwrapped and its doubled quotes undone; any other field is
taken literally. -/
def rfc4180ReadField (l : List Char) : List Char :=
  match l with
  | [] => []
  | c :: t =>
    if c = '"' ∧ t.getLast? = some '"' then unescQuote t.dropLast
    else c :: t

/-! ### `createPool` sanity checks -/

/-- The options fields inspected by `exports.createPool`; `none` models an
absent field. -/
structure CreateOpts where
  host : Option String
  port : Option Nat
  minPoolSize : Nat
  maxPoolSize : Nat
deriving DecidableEq

/-- JavaScript truthiness of a possibly-absent string. -/
def jsTruthyStr : Option String → Bool
  | some s => !s.isEmpty
  | none => false

/-- JavaScript truthiness of a possibly-absent number. -/
def jsTruthyNat : Option Nat → Bool
  | some n => n != 0
  | none => false

/-- `exports.createPool(options, req)`: returns `undefined` (and performs no
network activity) when `options.host` or `options.port` is falsy; otherwise
constructs an `HDBPool`, whose generic-pool eagerly starts creating
`minPoolSize` connections. The second component counts the connection
attempts started by construction. -/
def createPool (o : CreateOpts) : Option PoolSt × Nat :=
  if !jsTruthyStr o.host then (none, 0)
  else if !jsTruthyNat o.port then (none, 0)
  else (some (initPoolSt { minPoolSize := o.minPoolSize, maxPoolSize := o.maxPoolSize }),
        o.minPoolSize)

end HdbPool

namespace TransformLobs

/-- A column value flowing through the transform: either an inline (non-Lob)
value, or a Lob whose secondary read stream fails with an error, or a Lob
whose secondary read stream yields a list of chunks. -/
inductive CellVal where
  | plain (s : String)
  | lobError (e : String)
  | lobChunks (chunks : List String)
deriving DecidableEq

/-- Per-column behaviour of `transform` in `transformLobs.js`: a non-Lob value
is kept as it was; a Lob whose stream errors is replaced by the sentinel
string `'Error while reading Lob!'`; a Lob read to completion is replaced by
the concatenation of its chunks. -/
def transformValue : CellVal → CellVal
  | .plain s => .plain s
  | .lobError _ => .plain "Error while reading Lob!"
  | .lobChunks chunks => .plain (String.join chunks)

/-- A row: named columns in order. -/
abbrev Row := List (String × CellVal)

/-- `transform(data, ...)`: every column of the row is transformed in place;
column names and order are untouched. -/
def transformRow (r : Row) : Row :=
  r.map (fun p => (p.1, transformValue p.2))

/-- A chunk handed to `_transform`: a single row or a batched array of rows. -/
inductive Chunk where
  | single (r : Row)
  | batch (rs : List Row)
deriving DecidableEq

/-- `_transform(chunk, encoding, done)`: an array chunk is mapped element-wise
(`async.map` preserves order); a single row is transformed directly. -/
def transformChunk : Chunk → Chunk
  | .single r => .single (transformRow r)
  | .batch rs => .batch (rs.map transformRow)

end TransformLobs

namespace HdbMetaPool

/-! ### Failure classification and recovery (`queryUserPool`,
`detectSAMLerror`) -/

/-- The fields of a query error inspected by `queryUserPool`. A plain string
error is modelled by all fields `none`. -/
structure JSError where
  code : Option Int
  message : Option String
  assertion : Option String
deriving DecidableEq

/-- The marker substring of the missing-principal HANA error. -/
def principalMsg : String := "Invalid principal id for principal $principalName$"

/-- First index of `pat` in `l`, if any. -/
def listIndexOf (l pat : List Char) : Option Nat :=
  (List.range (l.length + 1)).find? (fun i => pat.isPrefixOf (l.drop i))

/-- JavaScript `s.indexOf(pat)`: first index, or `-1` when absent. -/
def jsIndexOf (s pat : String) : Int :=
  match listIndexOf s.toList pat.toList with
  | some i => (i : Int)
  | none => -1

/-- `err && err.code === 10`: the AUTH_FAILED classification. -/
def isAuthFailedErr (e : JSError) : Bool :=
  e.code == some 10

/-- `err && err.code === 591 && err.message &&
err.message.indexOf('Invalid principal id for principal $principalName$') > 0`:
the MISSING_PRINCIPAL classification. -/
def isMissingUserErr (e : JSError) : Bool :=
  e.code == some 591 &&
    (match e.message with
     | some m => jsIndexOf m principalMsg > 0
     | none => false)

/-- Observable outcome of the error handler wrapped around a user-pool query:
which recovery actions ran and which error the caller's callback receives. -/
structure RecoveryOutcome where
  passThrough : Bool
  poolMinZeroed : Bool
  poolDrained : Bool
  entryRemoved : Bool
  cookieCleared : Bool
  envPoolFlushed : Bool
  cbErr : Option JSError
deriving DecidableEq

/-- Outcome of the pass-through branch (`return cb(err, result)`): no recovery
action, the error is forwarded unchanged. -/
def passOutcome (cbe : Option JSError) : RecoveryOutcome :=
  { passThrough := true
    poolMinZeroed := false
    poolDrained := false
    entryRemoved := false
    cookieCleared := false
    envPoolFlushed := false
    cbErr := cbe }

/-- Outcome of `_drain`/`_clean` on an error `e`: the pool's `min` is zeroed,
the pool is drained and destroyed when it holds any handle, the tenant's
per-env pool reference is removed, the cached HANA session cookie is cleared
from the express session when one is cached, and the callback receives `e`
with its `assertion` field deleted. -/
def flushOutcome (poolSize : Nat) (cookiePresent : Bool) (envFlushed : Bool)
    (e : JSError) : RecoveryOutcome :=
  { passThrough := false
    poolMinZeroed := true
    poolDrained := decide (0 < poolSize)
    entryRemoved := true
    cookieCleared := cookiePresent
    envPoolFlushed := envFlushed
    cbErr := some { e with assertion := none } }

/-- `_drain(error)` in `queryUserPool`: `delete error.assertion` throws a
`TypeError` when `error` is null/undefined (the file is in strict mode);
otherwise the flush-and-clear sequence runs. -/
def drainStep (poolSize : Nat) (cookiePresent : Bool) (envFlushed : Bool) :
    Option JSError → Except String RecoveryOutcome
  | none => .error "TypeError: delete error.assertion with error null"
  | some e => .ok (flushOutcome poolSize cookiePresent envFlushed e)

/-- The error-handling callback of `queryUserPool`: unclassified errors pass
through unchanged; MISSING_PRINCIPAL errors are drained directly;
AUTH_FAILED errors on an assertion-authenticated pool whose error carries the
failed assertion are first re-probed via `detectSAMLerror` (which flushes the
environment pool when the re-probe unexpectedly succeeds) and `_drain` then
receives the re-probe's error; all other AUTH_FAILED errors are drained
directly with the original error. `reProbeErr` is the outcome of the
`CONNECT WITH SAML ASSERTION` re-probe on the environment pool. -/
def handleUserPoolError (authMethod : String) (poolSize : Nat) (cookiePresent : Bool)
    (err reProbeErr : Option JSError) : Except String RecoveryOutcome :=
  match err with
  | none => .ok (passOutcome none)
  | some e =>
    if !(isAuthFailedErr e) && !(isMissingUserErr e) then
      .ok (passOutcome (some e))
    else if isMissingUserErr e then
      drainStep poolSize cookiePresent false (some e)
    else
      if authMethod == "assertion" && e.assertion.isSome then
        drainStep poolSize cookiePresent reProbeErr.isNone reProbeErr
      else
        drainStep poolSize cookiePresent false (some e)

/-! ### Environment validation and routing (`query`, `queryEnvPool`) -/

/-- `/^[A-Za-z0-9_]+$/`: non-empty, alphanumeric or underscore only. -/
def envNameOk (s : String) : Bool :=
  !s.isEmpty && s.toList.all (fun c => c.isAlphanum || c == '_')

/-- The property names every plain JavaScript object (such as the `Conf`
object literal, or a configuration parsed from JSON) inherits from
`Object.prototype`; bracket lookup of any of them on such an object yields a
truthy value (a built-in function, or `Object.prototype` itself for
`__proto__`) even though it is not an own key. -/
def objectProtoProps : List String :=
  ["constructor", "hasOwnProperty", "isPrototypeOf", "propertyIsEnumerable",
   "toLocaleString", "toString", "valueOf", "__defineGetter__",
   "__defineSetter__", "__lookupGetter__", "__lookupSetter__", "__proto__"]

/-- JS truthiness of the bracket lookup `Conf.db[env]`, where `dbConfKeys`
are the own keys of `Conf.db` (the configured environments plus the
`default` key): an own key with a truthy value hits, and otherwise a truthy
inherited `Object.prototype` property hits. -/
def dbLookupTruthy (dbConfKeys : List String) (env : String) : Bool :=
  dbConfKeys.contains env || objectProtoProps.contains env

/-- Where a dispatched query ends up. `invalid` is the immediate callback
with the invalid-value error; `userPool` means the env was used as a routing
key towards the per-(user,env) pool machinery; `envPool` is a normal dispatch
on `envPools[env]`; `typeError` is the unhandled `TypeError` thrown by
`envPools[env][querymode](...)` when `env` passed validation but `envPools`
has no such pool (for an inherited prototype name the lookup yields a
built-in whose `[querymode]` is `undefined`; for the `default` key it yields
`undefined` directly). -/
inductive Route where
  | invalid (msg : String)
  | userPool (env : String)
  | envPool (env : String)
  | typeError (env : String)
deriving DecidableEq

/-- The routing of `query` in `hdbMetaPool.js` followed by the
environment-pool dispatch of `queryEnvPool`: the resolved `env` is rejected
with the invalid-value error only when it is falsy, fails the allow-listed
syntax, or `Conf.db[env]` is falsy; otherwise it is used as a routing key —
to the user-pool machinery when the request carries an authenticated SAML
session, else to `envPools[env][querymode]`, where only the environments
actually initialised by `initEnvPools` (the own keys of `Conf.db` without
`default`) have a pool and every other env that slipped through the
truthiness check throws a `TypeError`. -/
def query (dbConfKeys : List String) (sourceSysField : String) (env : String)
    (samlAuthenticated : Bool) : Route :=
  if !(envNameOk env) || !(dbLookupTruthy dbConfKeys env) then
    .invalid ("invalid " ++ sourceSysField ++ " value: " ++ env)
  else if samlAuthenticated then .userPool env
  else if (dbConfKeys.filter (fun k => k != "default")).contains env then .envPool env
  else .typeError env

/-! ### Environment resolution (`getEnvFromRequest`) -/

/-- The places of a request where `getEnvFromRequest` looks for the
source-system field; `none` models an absent (or falsy) value. -/
structure Req where
  sessionField : Option String
  returnToField : Option String
  headerField : Option String
  queryField : Option String
  bodyField : Option String
deriving DecidableEq

/-- `getEnvFromRequest(req)`: starts from the configured default, then lets
the session field, the request header, the GET query parameter (or, only when
that is absent, the parameter parsed from `req.session.returnTo`), and
finally the POST body field each override the previous value. -/
def getEnvFromRequest (dflt : String) (req : Option Req) : String :=
  match req with
  | none => dflt
  | some r =>
    let env := dflt
    let env := match r.sessionField with | some v => v | none => env
    let env := match r.headerField with | some v => v | none => env
    let env := match r.queryField with
      | some v => v
      | none => match r.returnToField with | some v => v | none => env
    match r.bodyField with | some v => v | none => env

end HdbMetaPool

/-! ## Claim theorems -/

/-- C3: the claim says that when the correlating request signals close before
completion the dispatcher releases the handle and never delivers the query's
result or error to the abandoned caller. Evaluating the dispatcher's event
trace at the failing input — the request closes after the handle was acquired,
while the statement is still executing, and the execution then ends with an
error — shows that the caller's callback is nevertheless invoked a second
time with that error (and the handle is released twice). -/
theorem claim_C3_eval :
    HdbPool.dispatchEvents HdbPool.CloseTime.duringExec (HdbPool.QueryOutcome.err "E") =
      [HdbPool.DispatchEvent.release, HdbPool.DispatchEvent.callback none none,
       HdbPool.DispatchEvent.release, HdbPool.DispatchEvent.callback (some "E") none] := rfl

/-- C4: the claim says the request-integrated response carries
`<prefix>query-time` equal to the execution milliseconds and
`<prefix>waiting-time` equal to the waiting milliseconds. The code computes
them from `this.start` and `this.execStart`, which no statement in the source
ever assigns (`query` keeps its timestamps in local variables only), so both
headers are `NaN` (modelled as `none`) whatever the actual timings were. -/
theorem claim_C4_eval (headerPfx : String) (tReady tAcquired tDone : Int) :
    HdbPool.queryRespHeaders headerPfx tReady tAcquired tDone =
      [ (headerPfx ++ "query-time", none), (headerPfx ++ "waiting-time", none) ] := rfl

/-- C6: handle creation selects exactly one authentication strategy by fixed
precedence — Password (user and password present) over SessionCookie (user
and sessionCookie present) over Assertion — and fails with
`'no authentication method'` when none is available; in the SessionCookie and
Assertion modes a non-empty placeholder password is still supplied. -/
theorem claim_C6 (o : HdbPool.AuthOptions) (user : String) :
    (∀ u p, o.user = some u → o.password = some p →
       HdbPool.selectAuth o user = Except.ok (HdbPool.Credential.password user p)) ∧
    (∀ u c, o.user = some u → o.password = none → o.sessionCookie = some c →
       HdbPool.selectAuth o user =
         Except.ok (HdbPool.Credential.sessionCookie u HdbPool.placeholderPassword c)) ∧
    (∀ a, o.assertion = some a → (o.user = none ∨ o.password = none) →
       (o.user = none ∨ o.sessionCookie = none) →
       HdbPool.selectAuth o user =
         Except.ok (HdbPool.Credential.assertion user HdbPool.placeholderPassword a)) ∧
    ((o.user = none ∨ o.password = none) → (o.user = none ∨ o.sessionCookie = none) →
       o.assertion = none →
       HdbPool.selectAuth o user = Except.error "no authentication method") ∧
    HdbPool.placeholderPassword ≠ [] := by
  obtain ⟨u?, p?, c?, a?⟩ := o
  refine ⟨?_, ?_, ?_, ?_, by decide⟩
  · rintro u p rfl rfl
    rfl
  · rintro u c rfl rfl rfl
    rfl
  · rintro a rfl h1 h2
    rcases h1 with h1 | h1
    · subst h1
      cases p? <;> cases c? <;> rfl
    · subst h1
      rcases h2 with h2 | h2
      · subst h2
        cases c? <;> rfl
      · subst h2
        cases u? <;> rfl
  · intro h1 h2 h3
    subst h3
    rcases h1 with h1 | h1
    · subst h1
      cases p? <;> cases c? <;> rfl
    · subst h1
      rcases h2 with h2 | h2
      · subst h2
        cases c? <;> rfl
      · subst h2
        cases u? <;> rfl

/-- C6 witness: concrete instantiations of the precedence theorem — a user
with a cached session cookie and no password connects via the sessionCookie
method, and a configuration with no credentials at all fails with
`'no authentication method'`. -/
theorem claim_C6_witness :
    HdbPool.selectAuth ⟨some "U", none, some "COOKIE", none⟩ "U" =
      Except.ok (HdbPool.Credential.sessionCookie "U" HdbPool.placeholderPassword "COOKIE") ∧
    HdbPool.selectAuth ⟨none, none, none, none⟩ "Unknown-user" =
      Except.error "no authentication method" :=
  ⟨(claim_C6 ⟨some "U", none, some "COOKIE", none⟩ "U").2.1 "U" "COOKIE" rfl rfl rfl,
   (claim_C6 ⟨none, none, none, none⟩ "Unknown-user").2.2.2.1 (Or.inl rfl) (Or.inl rfl) rfl⟩

/-- C8: the claim says any environment value that fails the syntax check or
does not name a configured environment fails immediately with the
invalid-value error, with no pool lookup. The validation actually tests JS
truthiness of `Conf.db[env]`, which also accepts inherited `Object.prototype`
property names and the `default` configuration key: evaluated at the failing
input `env = "toString"` (syntax-valid, not a configured environment, with
`Conf.db` holding the keys `default` and `HDB`) the query passes validation
and the environment-pool dispatch throws an unhandled `TypeError` instead of
failing with the invalid-value error — likewise for `env = "default"` —
while a syntactically invalid env and an unknown well-formed env do fail
immediately and a configured env routes normally. -/
theorem claim_C8_eval :
    HdbMetaPool.query ["default", "HDB"] "source-sys" "toString" false =
      HdbMetaPool.Route.typeError "toString" ∧
    HdbMetaPool.query ["default", "HDB"] "source-sys" "__proto__" false =
      HdbMetaPool.Route.typeError "__proto__" ∧
    HdbMetaPool.query ["default", "HDB"] "source-sys" "default" false =
      HdbMetaPool.Route.typeError "default" ∧
    HdbMetaPool.query ["default", "HDB"] "source-sys" "H!DB" false =
      HdbMetaPool.Route.invalid "invalid source-sys value: H!DB" ∧
    HdbMetaPool.query ["default", "HDB"] "source-sys" "OTHER" false =
      HdbMetaPool.Route.invalid "invalid source-sys value: OTHER" ∧
    HdbMetaPool.query ["default", "HDB"] "source-sys" "HDB" false =
      HdbMetaPool.Route.envPool "HDB" := by
  decide

/-- C9: for every configuration with a missing host or a missing port,
`createPool` returns no pool and starts no connection attempt. -/
theorem claim_C9 (o : HdbPool.CreateOpts) (h : o.host = none ∨ o.port = none) :
    HdbPool.createPool o = (none, 0) := by
  rcases h with h | h
  · simp [HdbPool.createPool, h, HdbPool.jsTruthyStr]
  · cases hh : HdbPool.jsTruthyStr o.host <;>
      simp [HdbPool.createPool, hh, h, HdbPool.jsTruthyNat]

/-- C9 witness: a configuration with no host but a valid port yields no pool
and no connection attempts. -/
theorem claim_C9_witness :
    HdbPool.createPool ⟨none, some 30015, 1, 3⟩ = (none, 0) :=
  claim_C9 ⟨none, some 30015, 1, 3⟩ (Or.inl rfl)

/-- C10: the environment is resolved by fixed precedence — POST body field,
then GET query parameter (or the parameter parsed from the session's returnTo
URL when the query parameter is absent), then request header, then session
field, falling back to the configured default. -/
theorem claim_C10 (dflt : String) (r : HdbMetaPool.Req) :
    HdbMetaPool.getEnvFromRequest dflt (some r) =
      r.bodyField.getD (r.queryField.getD (r.returnToField.getD
        (r.headerField.getD (r.sessionField.getD dflt)))) ∧
    HdbMetaPool.getEnvFromRequest dflt none = dflt := by
  obtain ⟨sf, rf, hf, qf, bf⟩ := r
  refine ⟨?_, rfl⟩
  cases sf <;> cases rf <;> cases hf <;> cases qf <;> cases bf <;> rfl

/-- Indexing commutes with the row transform (helper). -/
theorem rowGet_map (r : TransformLobs.Row) (i : Nat) :
    (TransformLobs.transformRow r)[i]? =
      r[i]?.map (fun p => (p.1, TransformLobs.transformValue p.2)) :=
  List.getElem?_map ..

/-- C5: in the large-object streaming transform, a row column whose secondary
Lob stream fails is replaced by the sentinel string
`'Error while reading Lob!'`; every column (so in particular every sibling of
a failing column) is transformed independently with its name and position
preserved; rows containing no Lob column pass through unchanged; and an array
chunk is transformed element-wise with order preserved. -/
theorem claim_C5 (r : TransformLobs.Row) (i : Nat) (name e : String)
    (v : TransformLobs.CellVal) (rs : List TransformLobs.Row) :
    (r[i]? = some (name, TransformLobs.CellVal.lobError e) →
       (TransformLobs.transformRow r)[i]? =
         some (name, TransformLobs.CellVal.plain "Error while reading Lob!")) ∧
    (r[i]? = some (name, v) →
       (TransformLobs.transformRow r)[i]? = some (name, TransformLobs.transformValue v)) ∧
    ((∀ p ∈ r, ∃ s, p.2 = TransformLobs.CellVal.plain s) →
       TransformLobs.transformRow r = r) ∧
    TransformLobs.transformChunk (TransformLobs.Chunk.batch rs) =
      TransformLobs.Chunk.batch (rs.map TransformLobs.transformRow) ∧
    TransformLobs.transformChunk (TransformLobs.Chunk.single r) =
      TransformLobs.Chunk.single (TransformLobs.transformRow r) := by
  refine ⟨?_, ?_, ?_, rfl, rfl⟩
  · intro h
    rw [rowGet_map, h]
    rfl
  · intro h
    rw [rowGet_map, h]
    rfl
  · induction r with
    | nil => intro _; rfl
    | cons p t ih =>
      intro h
      obtain ⟨s, hs⟩ := h p (List.mem_cons_self p t)
      have ht := ih (fun q hq => h q (List.mem_cons_of_mem p hq))
      have h1 : TransformLobs.transformValue p.2 = p.2 := by rw [hs]; rfl
      show (p.1, TransformLobs.transformValue p.2) :: TransformLobs.transformRow t = p :: t
      rw [h1, ht, Prod.mk.eta]

/-- C5 witness: a concrete three-column row whose middle column's Lob stream
fails yields the sentinel for that column while the transform leaves the
row's shape intact. -/
theorem claim_C5_witness :
    (TransformLobs.transformRow
        [("A", TransformLobs.CellVal.plain "x"),
         ("B", TransformLobs.CellVal.lobError "boom"),
         ("C", TransformLobs.CellVal.lobChunks ["a", "b"])])[1]? =
      some ("B", TransformLobs.CellVal.plain "Error while reading Lob!") :=
  (claim_C5 [("A", TransformLobs.CellVal.plain "x"),
             ("B", TransformLobs.CellVal.lobError "boom"),
             ("C", TransformLobs.CellVal.lobChunks ["a", "b"])]
    1 "B" "boom" (TransformLobs.CellVal.plain "") []).1 rfl

/-- Prepending a non-quote character commutes with quote undoubling
(helper). -/
theorem unescQuote_cons (c : Char) (hc : c ≠ '"') (l : List Char) :
    HdbPool.unescQuote (c :: l) = c :: HdbPool.unescQuote l := by
  cases l with
  | nil => rfl
  | cons d t =>
    simp only [HdbPool.unescQuote]
    rw [if_neg (fun h => hc h.1)]

/-- Undoubling is a left inverse of quote doubling (helper). -/
theorem unescQuote_escQuote (l : List Char) :
    HdbPool.unescQuote (HdbPool.escQuote l) = l := by
  induction l with
  | nil => rfl
  | cons c t ih =>
    by_cases hc : c = '"'
    · subst hc
      simp only [HdbPool.escQuote, if_pos rfl]
      simp [HdbPool.unescQuote, ih]
    · simp only [HdbPool.escQuote, if_neg hc]
      rw [unescQuote_cons c hc, ih]

/-- The last element of a list with one appended element (helper). -/
theorem getLastQ_append_single (l : List Char) (a : Char) :
    (l ++ [a]).getLast? = some a := by
  simp

/-- Dropping the last element of a list with one appended element (helper). -/
theorem dropLast_append_single (l : List Char) (a : Char) :
    (l ++ [a]).dropLast = l := by
  simp

/-- C7: `dsvquote` encloses a value in double quotes exactly when it contains
the separator, a double-quote character, or a line break, doubling each
embedded double quote; consequently re-parsing the serialized field with an
RFC 4180-compliant reader recovers the original value (round-trip identity),
in particular for values containing the separator, a quote and a line break
at once. -/
theorem claim_C7 (v : List Char) (sep : Char) :
    (HdbPool.needsQuoting v sep = true →
       HdbPool.dsvquote v sep = '"' :: (HdbPool.escQuote v ++ ['"'])) ∧
    (HdbPool.needsQuoting v sep = false → HdbPool.dsvquote v sep = v) ∧
    HdbPool.rfc4180ReadField (HdbPool.dsvquote v sep) = v := by
  cases v with
  | nil =>
    refine ⟨?_, ?_, ?_⟩
    · intro h
      simp [HdbPool.needsQuoting] at h
    · intro _
      rfl
    · rfl
  | cons c t =>
    cases hq : HdbPool.needsQuoting (c :: t) sep with
    | true =>
      have hdq : HdbPool.dsvquote (c :: t) sep = '"' :: (HdbPool.escQuote (c :: t) ++ ['"']) := by
        simp [HdbPool.dsvquote, hq]
      refine ⟨fun _ => hdq, ?_, ?_⟩
      · intro h
        exact absurd h (by simp)
      · rw [hdq]
        simp [HdbPool.rfc4180ReadField, getLastQ_append_single, dropLast_append_single,
          unescQuote_escQuote]
    | false =>
      have h2 : (c :: t).contains '"' = false := by
        rw [HdbPool.needsQuoting] at hq
        rcases Bool.or_eq_false_iff.mp hq with ⟨h', -⟩
        exact (Bool.or_eq_false_iff.mp h').2
      have hc : c ≠ '"' := by
        intro h
        subst h
        simp [List.contains_cons] at h2
      have hdq : HdbPool.dsvquote (c :: t) sep = c :: t := by
        simp [HdbPool.dsvquote, hq]
      refine ⟨?_, fun _ => hdq, ?_⟩
      · intro h
        exact absurd h (by simp)
      · rw [hdq]
        simp [HdbPool.rfc4180ReadField, hc]

/-- C7 witness: a concrete value containing the separator, a double quote and
an embedded line break is quoted, and re-parsing the serialized field
recovers the original value. -/
theorem claim_C7_witness :
    HdbPool.dsvquote ("a;\"b\"\nc".toList) ';' =
      '"' :: (HdbPool.escQuote ("a;\"b\"\nc".toList) ++ ['"']) ∧
    HdbPool.rfc4180ReadField (HdbPool.dsvquote ("a;\"b\"\nc".toList) ';') =
      "a;\"b\"\nc".toList :=
  ⟨(claim_C7 ("a;\"b\"\nc".toList) ';').1 (by decide),
   (claim_C7 ("a;\"b\"\nc".toList) ';').2.2⟩

/-- The invariant holds in the initial state of a pool with
`minPoolSize > 0` (helper). -/
theorem poolInv_init (cfg : HdbPool.PoolCfg) (hmin : 0 < cfg.minPoolSize) :
    HdbPool.PoolInv cfg (HdbPool.initPoolSt cfg) := by
  refine ⟨by simp [HdbPool.initPoolSt], ?_, ?_⟩
  · intro _
    refine ⟨rfl, rfl, by simp [HdbPool.initPoolSt], ?_⟩
    simp [HdbPool.initPoolSt, hmin]
  · intro c hc
    simp [HdbPool.initPoolSt] at hc

/-- The invariant is preserved by every pool step (helper). -/
theorem poolInv_step (cfg : HdbPool.PoolCfg) (hmax : 1 ≤ cfg.maxPoolSize)
    {s t : HdbPool.PoolSt} (hstep : HdbPool.PoolStep cfg s t)
    (ih : HdbPool.PoolInv cfg s) : HdbPool.PoolInv cfg t := by
  obtain ⟨ih1, ih2, ih3⟩ := ih
  cases hstep with
  | start hcap =>
    refine ⟨?_, ?_, ?_⟩
    · simp only [List.length_cons]
      omega
    · intro h
      obtain ⟨hh, hs0, hall, hm⟩ := ih2 h
      refine ⟨hh, hs0, ?_, hm⟩
      intro b hb
      rcases List.mem_cons.mp hb with rfl | hb'
      · rw [h]
        rfl
      · exact hall b hb'
    · intro c hc
      obtain ⟨hsa, hne, hallc, hallf, hm⟩ := ih3 c hc
      refine ⟨hsa, hne, hallc, ?_, hm⟩
      intro b hb
      rcases List.mem_cons.mp hb with rfl | hb'
      · rw [hc]
        rfl
      · exact hallf b hb'
  | finishAssertion rest c hcr =>
    have hst : s.stored = none := by
      cases hs : s.stored with
      | none => rfl
      | some c0 =>
        have hb := (ih3 c0 hs).2.2.2.1 true (by rw [hcr]; exact List.mem_cons_self true rest)
        exact Bool.noConfusion hb
    obtain ⟨hh, hs0, hall, hm⟩ := ih2 hst
    have hrest : rest = [] := by
      have h1 := ih1
      rw [hh, hm, hcr] at h1
      simp only [List.length_cons, List.length_nil] at h1
      have : rest.length = 0 := by omega
      exact List.length_eq_zero.mp this
    subst hrest
    refine ⟨?_, ?_, ?_⟩
    · simp only [List.length_cons, List.length_nil, hh]
      omega
    · intro h
      exact Option.noConfusion h
    · intro c' hc'
      injection hc' with hcc
      subst hcc
      refine ⟨by rw [hs0], by simp, ?_, by simp, rfl⟩
      intro x hx
      rw [hh] at hx
      simpa using hx
  | finishCookie rest c hcr hst =>
    obtain ⟨hsa, hne, hallc, hallf, hm⟩ := ih3 c hst
    refine ⟨?_, ?_, ?_⟩
    · have h1 := ih1
      rw [hcr, hm] at h1
      simp only [List.length_cons] at h1 ⊢
      omega
    · intro h
      exact Option.noConfusion h
    · intro c' hc'
      injection hc' with hcc
      subst hcc
      refine ⟨hsa, by simp, ?_, ?_, rfl⟩
      · intro x hx
        rcases List.mem_cons.mp hx with rfl | hx'
        · rfl
        · exact hallc x hx'
      · intro b hb
        exact hallf b (by rw [hcr]; exact List.mem_cons_of_mem false hb)
  | fail m rest hcr =>
    refine ⟨?_, ?_, ?_⟩
    · show rest.length + s.handles.length ≤ s.max
      have h1 := ih1
      rw [hcr] at h1
      simp only [List.length_cons] at h1
      omega
    · intro h
      obtain ⟨hh, hs0, hall, hm⟩ := ih2 h
      exact ⟨hh, hs0, fun b hb => hall b (by rw [hcr]; exact List.mem_cons_of_mem m hb), hm⟩
    · intro c hc
      obtain ⟨hsa, hne, hallc, hallf, hm⟩ := ih3 c hc
      exact ⟨hsa, hne, hallc,
        fun b hb => hallf b (by rw [hcr]; exact List.mem_cons_of_mem m hb), hm⟩

/-- Every reachable state of a `minPoolSize > 0` pool satisfies the invariant
(helper). -/
theorem poolInv_reach (cfg : HdbPool.PoolCfg) (hmin : 0 < cfg.minPoolSize)
    (hmax : 1 ≤ cfg.maxPoolSize) {s : HdbPool.PoolSt}
    (h : HdbPool.PoolReach cfg s) : HdbPool.PoolInv cfg s := by
  induction h with
  | init => exact poolInv_init cfg hmin
  | step _ hstep ih => exact poolInv_step cfg hmax hstep ih

/-- C2: for every pool constructed with `minPoolSize > 0`, the effective
maximum size is 1 from construction until the first handle creation succeeds
(so at most one creation — one delegated authentication — can be in flight
before the first success), the configured `maxPoolSize` is restored on the
first successful connection, at most one delegated (assertion) authentication
is ever performed, and all handles created on the pool carry the same session
cookie — so concurrent first-time acquisitions resolve to the same cookie. -/
theorem claim_C2 (cfg : HdbPool.PoolCfg) (hmin : 0 < cfg.minPoolSize)
    (hmax : 1 ≤ cfg.maxPoolSize) (s : HdbPool.PoolSt)
    (hs : HdbPool.PoolReach cfg s) :
    (HdbPool.initPoolSt cfg).max = 1 ∧
    (s.handles = [] → s.max = 1 ∧ s.creating.length ≤ 1) ∧
    (s.handles ≠ [] → s.max = cfg.maxPoolSize) ∧
    s.samlAuths ≤ 1 ∧
    (∀ c₁ ∈ s.handles, ∀ c₂ ∈ s.handles, c₁ = c₂) := by
  obtain ⟨ih1, ih2, ih3⟩ := poolInv_reach cfg hmin hmax hs
  refine ⟨by simp [HdbPool.initPoolSt, hmin], ?_, ?_, ?_, ?_⟩
  · intro hh
    cases hst : s.stored with
    | none =>
      obtain ⟨-, -, -, hm⟩ := ih2 hst
      refine ⟨hm, ?_⟩
      rw [hh] at ih1
      simp only [List.length_nil] at ih1
      omega
    | some c0 => exact absurd hh (ih3 c0 hst).2.1
  · intro hne
    cases hst : s.stored with
    | none => exact absurd (ih2 hst).1 hne
    | some c0 => exact (ih3 c0 hst).2.2.2.2
  · cases hst : s.stored with
    | none => simp [(ih2 hst).2.1]
    | some c0 => simp [(ih3 c0 hst).1]
  · intro c₁ h₁ c₂ h₂
    cases hst : s.stored with
    | none =>
      rw [(ih2 hst).1] at h₁
      exact absurd h₁ (List.not_mem_nil c₁)
    | some c0 =>
      have ha := (ih3 c0 hst).2.2.1
      rw [ha c₁ h₁, ha c₂ h₂]

/-- C2 witness: the theorem applied to the freshly constructed pool of a
concrete configuration with `minPoolSize = 1` and `maxPoolSize = 3`. -/
theorem claim_C2_witness :
    (HdbPool.initPoolSt ⟨1, 3⟩).max = 1 ∧
    ((HdbPool.initPoolSt ⟨1, 3⟩).handles = [] →
       (HdbPool.initPoolSt ⟨1, 3⟩).max = 1 ∧
       (HdbPool.initPoolSt ⟨1, 3⟩).creating.length ≤ 1) ∧
    ((HdbPool.initPoolSt ⟨1, 3⟩).handles ≠ [] →
       (HdbPool.initPoolSt ⟨1, 3⟩).max = (HdbPool.PoolCfg.mk 1 3).maxPoolSize) ∧
    (HdbPool.initPoolSt ⟨1, 3⟩).samlAuths ≤ 1 ∧
    (∀ c₁ ∈ (HdbPool.initPoolSt ⟨1, 3⟩).handles,
       ∀ c₂ ∈ (HdbPool.initPoolSt ⟨1, 3⟩).handles, c₁ = c₂) :=
  claim_C2 ⟨1, 3⟩ (by decide) (by decide) (HdbPool.initPoolSt ⟨1, 3⟩)
    HdbPool.PoolReach.init

/-- An error classified AUTH_FAILED (code 10) is never classified
MISSING_PRINCIPAL (code 591) as well (helper). -/
theorem authFailed_not_missingUser (e : HdbMetaPool.JSError)
    (h : HdbMetaPool.isAuthFailedErr e = true) :
    HdbMetaPool.isMissingUserErr e = false := by
  rw [HdbMetaPool.isAuthFailedErr, beq_iff_eq] at h
  have hne : (e.code == some 591) = false := by
    rw [h]
    decide
  rw [HdbMetaPool.isMissingUserErr, hne, Bool.false_and]

/-- C1 (amended): for every user-pool query error classified
MISSING_PRINCIPAL (code 591 with the `Invalid principal id` message) or
AUTH_FAILED (code 10), the handler zeroes the pool's min size, drains and
destroys the pool's handles when any exist, clears the cached HANA session
cookie from the external session store when one is cached, removes the tenant
entry, and invokes the caller's callback with the original error with its
`assertion` field deleted — except that for AUTH_FAILED on an
assertion-authenticated pool whose error carries the failed assertion, the
assertion is first re-probed against the shared environment pool (which is
flushed when the re-probe unexpectedly succeeds, the handler then throwing on
the absent error object) and the callback receives the re-probe's error
instead of the original; errors of any other class pass through unchanged. -/
theorem claim_C1_amended (authMethod : String) (poolSize : Nat) (cookiePresent : Bool)
    (e : HdbMetaPool.JSError) (reProbeErr : Option HdbMetaPool.JSError) :
    (HdbMetaPool.isAuthFailedErr e = false → HdbMetaPool.isMissingUserErr e = false →
       HdbMetaPool.handleUserPoolError authMethod poolSize cookiePresent (some e) reProbeErr =
         Except.ok (HdbMetaPool.passOutcome (some e))) ∧
    (HdbMetaPool.isMissingUserErr e = true →
       HdbMetaPool.handleUserPoolError authMethod poolSize cookiePresent (some e) reProbeErr =
         Except.ok (HdbMetaPool.flushOutcome poolSize cookiePresent false e)) ∧
    (HdbMetaPool.isAuthFailedErr e = true →
       ¬(authMethod = "assertion" ∧ e.assertion.isSome = true) →
       HdbMetaPool.handleUserPoolError authMethod poolSize cookiePresent (some e) reProbeErr =
         Except.ok (HdbMetaPool.flushOutcome poolSize cookiePresent false e)) ∧
    (HdbMetaPool.isAuthFailedErr e = true → authMethod = "assertion" →
       e.assertion.isSome = true →
       (∀ e2, reProbeErr = some e2 →
          HdbMetaPool.handleUserPoolError authMethod poolSize cookiePresent (some e) reProbeErr =
            Except.ok (HdbMetaPool.flushOutcome poolSize cookiePresent false e2)) ∧
       (reProbeErr = none →
          HdbMetaPool.handleUserPoolError authMethod poolSize cookiePresent (some e) reProbeErr =
            Except.error "TypeError: delete error.assertion with error null")) := by
  refine ⟨?_, ?_, ?_, ?_⟩
  · intro hA hM
    simp [HdbMetaPool.handleUserPoolError, hA, hM]
  · intro hM
    have hA : HdbMetaPool.isAuthFailedErr e = false := by
      cases hA : HdbMetaPool.isAuthFailedErr e with
      | false => rfl
      | true => rw [authFailed_not_missingUser e hA] at hM; cases hM
    simp [HdbMetaPool.handleUserPoolError, hA, hM, HdbMetaPool.drainStep]
  · intro hA hnot
    have hM := authFailed_not_missingUser e hA
    have hcond : (authMethod == "assertion" && e.assertion.isSome) = false := by
      by_cases ham : authMethod = "assertion"
      · have hia : e.assertion.isSome = false := by
          cases hia : e.assertion.isSome with
          | false => rfl
          | true => exact absurd ⟨ham, hia⟩ hnot
        simp [hia]
      · simp [ham]
    simp [HdbMetaPool.handleUserPoolError, hA, hM, hcond, HdbMetaPool.drainStep]
  · intro hA ham hia
    subst ham
    have hM := authFailed_not_missingUser e hA
    constructor
    · intro e2 hre
      subst hre
      simp [HdbMetaPool.handleUserPoolError, hA, hM, hia, HdbMetaPool.drainStep]
    · intro hre
      subst hre
      simp [HdbMetaPool.handleUserPoolError, hA, hM, hia, HdbMetaPool.drainStep]

/-- C1 counterexample: the claim as stated requires the callback to receive
the original error. At the concrete input below — an AUTH_FAILED (code 10)
error carrying its failed assertion on an assertion-authenticated pool, with
the environment-pool re-probe failing with a different error (code 414) —
the handler's callback receives the re-probe's error, which differs from the
original error even after deleting its assertion field. -/
theorem claim_C1_counterexample :
    HdbMetaPool.handleUserPoolError "assertion" 1 true
        (some ⟨some 10, none, some "ASSERT"⟩)
        (some ⟨some 414, some "user is forced to change password", none⟩) =
      Except.ok (HdbMetaPool.flushOutcome 1 true false
        ⟨some 414, some "user is forced to change password", none⟩) ∧
    (HdbMetaPool.flushOutcome 1 true false
        (⟨some 414, some "user is forced to change password", none⟩ :
          HdbMetaPool.JSError)).cbErr ≠
      some ⟨some 10, none, some "ASSERT"⟩ ∧
    (HdbMetaPool.flushOutcome 1 true false
        (⟨some 414, some "user is forced to change password", none⟩ :
          HdbMetaPool.JSError)).cbErr ≠
      some ⟨some 10, none, none⟩ :=
  ⟨rfl, by decide, by decide⟩

/-- C1 witness: the amended theorem applied to a concrete MISSING_PRINCIPAL
error (code 591, message containing the marker at a positive offset) on a
cookie-authenticated pool of size 2 with a cached cookie: the pool is
drained, the cookie cleared, the entry removed and the original error
returned. -/
theorem claim_C1_witness :
    HdbMetaPool.isMissingUserErr
        ⟨some 591, some "e: Invalid principal id for principal $principalName$", none⟩ = true ∧
    HdbMetaPool.handleUserPoolError "sessionCookie" 2 true
        (some ⟨some 591, some "e: Invalid principal id for principal $principalName$", none⟩)
        none =
      Except.ok (HdbMetaPool.flushOutcome 2 true false
        ⟨some 591, some "e: Invalid principal id for principal $principalName$", none⟩) :=
  ⟨by decide,
   (claim_C1_amended "sessionCookie" 2 true
       ⟨some 591, some "e: Invalid principal id for principal $principalName$", none⟩
       none).2.1 (by decide)⟩
